import Mathlib

/-!
Verification of the visual-monitor pipeline in `scripts/monitor.js`.

The embedding models the pure core of the script: image padding and
diffing (`diffPngs`), the change decision (line 292), the per-target
orchestration loop of `main` (lines 262-306), the commit/notification
phase (lines 312-372), and the attachment-budget selection
(lines 328-347).  Raster images are RGBA pixel buffers; JavaScript
floating-point ratios are modelled as exact rationals.
-/

namespace Monitor

/-- One RGBA pixel, each channel a byte value. -/
structure Pix where
  r : Nat
  g : Nat
  b : Nat
  a : Nat
deriving DecidableEq, Repr

/-- The all-zero (transparent black) pixel: the content of a freshly
allocated `new PNG({width, height})` buffer, which pngjs zero-fills. -/
def zeroPix : Pix := ⟨0, 0, 0, 0⟩

/-- A decoded PNG: width, height, and the flat pixel buffer
(row-major, `data[y * width + x]`). -/
structure Img where
  width : Nat
  height : Nat
  data : List Pix
deriving DecidableEq, Repr

/-- Pixel access at in-rectangle coordinates; out-of-rectangle reads,
which the script never performs, return the zero pixel. -/
def getPix (i : Img) (x y : Nat) : Pix :=
  if x < i.width ∧ y < i.height then i.data.getD (y * i.width + x) zeroPix else zeroPix

/-- Build a `W × H` image whose pixel at `(x, y)` is `f x y`
(row-major flat buffer, like a pngjs data buffer). -/
def mkImg (W H : Nat) (f : Nat → Nat → Pix) : Img :=
  ⟨W, H, (List.range (W * H)).map (fun k => f (k % W) (k / W))⟩

/-- The `padTo` helper inside `diffPngs` (monitor.js lines 168-173): if the
image already has the target size it is returned unchanged, otherwise it is
copied by `PNG.bitblt` into the top-left of a zero-initialised `W × H`
canvas. -/
def padTo (W H : Nat) (i : Img) : Img :=
  if i.width = W ∧ i.height = H then i
  else mkImg W H (fun x y => if x < i.width ∧ y < i.height then getPix i x y else zeroPix)

/-- Modelled from the spec: the per-pixel comparison performed by the external
`pixelmatch` library (not part of this repository), which "computes per-pixel
difference using a configurable per-channel tolerance (`pixelThreshold`)"; a
pixel pair counts as differing when some channel differs by more than the
tolerance.  The spec's anti-aliasing exclusion removes only pixels classified
as anti-aliasing noise and is not further specified, so no pixel is excluded
here. -/
def pixDiffers (t : Nat) (p q : Pix) : Bool :=
  (max p.r q.r - min p.r q.r > t) || (max p.g q.g - min p.g q.g > t) ||
  (max p.b q.b - min p.b q.b > t) || (max p.a q.a - min p.a q.a > t)

/-- Modelled from the spec: the differing-pixel count returned by
`pixelmatch(a.data, b.data, …, width, height, …)` — the number of positions
of the `W × H` canvas whose pixel pair differs beyond the tolerance. -/
def pixelmatchCount (t : Nat) (a b : Img) (W H : Nat) : Nat :=
  ((List.range (W * H)).filter
    (fun k => pixDiffers t (getPix a (k % W) (k / W)) (getPix b (k % W) (k / W)))).length

/-- The result record of `diffPngs` (monitor.js line 187): differing-pixel
count, total pixel count of the normalised canvas, and their ratio. -/
structure DiffResult where
  diffPixels : Nat
  totalPixels : Nat
  ratio : ℚ
deriving DecidableEq, Repr

/-- `diffPngs` (monitor.js lines 161-188): normalise both inputs onto a
canvas of the maximum width and maximum height, count differing pixels,
and return the count, the total and the ratio `diffPixels / totalPixels`. -/
def diffPngs (t : Nat) (img1 img2 : Img) : DiffResult :=
  let width := max img1.width img2.width
  let height := max img1.height img2.height
  let a := padTo width height img1
  let b := padTo width height img2
  let diffPixels := pixelmatchCount t a b width height
  let totalPixels := width * height
  ⟨diffPixels, totalPixels, (diffPixels : ℚ) / (totalPixels : ℚ)⟩

/-- The change decision of monitor.js line 292:
`const changed = ratio >= changeThresholdRatio`. -/
def changedOf (ratio changeThresholdRatio : ℚ) : Bool :=
  decide (ratio ≥ changeThresholdRatio)

/-- One element of the `changes` array (monitor.js lines 272 and 296-301):
either a capture failure carrying a note, or a detected change carrying the
diff ratio and pixel counts. -/
inductive Entry where
  | failure (url : String) (note : String)
  | change (url : String) (ratio : ℚ) (diffPixels : Nat) (totalPixels : Nat)
deriving DecidableEq, Repr

/-- Whether an entry is a capture-failure entry (`changes.push({url, note})`,
monitor.js line 272). -/
def Entry.isFailure : Entry → Bool
  | .failure _ _ => true
  | .change _ _ _ _ => false

/-- The configuration the script reads from `monitor.config.json`
(monitor.js lines 238-242 and 324-326). -/
structure Config where
  urls : List String
  pixelmatchThreshold : Nat
  changeThresholdRatio : ℚ
  attachMaxPngs : Nat
  maxAttachmentBytes : Nat

/-- The external collaborators of one run: the browser capture (which either
yields a decoded screenshot or raises, monitor.js lines 269-274), the slug
derivation `safeSlug` (a pure function of the URL, whose sha1 component is
kept abstract), an injected failure mode for the baseline read of line 285,
and the byte sizes the filesystem reports for the produced artifacts
(lines 336 and 343). -/
structure Env where
  capture : String → Except String Img
  slug : String → String
  readBaselineFails : String → Bool
  zipSize : Nat
  diffFileSize : String → Nat

/-- Point update of a string-keyed store, the effect of
`writeFileAtomic(path, buf)` on the directory it writes into. -/
def fupdate (f : String → Option Img) (k : String) (v : Img) : String → Option Img :=
  fun s => if s = k then some v else f s

/-- The mutable state accumulated by the target loop of `main`
(monitor.js lines 259-306): the baselines directory, the run directory of
current captures, the ordered list of persisted diff images (slug paired
with the diff result written at line 295), the `changes` report array and
the `seededBaselines` counter. -/
structure RunState where
  baselines : String → Option Img
  runFiles : String → Option Img
  diffs : List (String × DiffResult)
  changes : List Entry
  seededBaselines : Nat

/-- The body of the per-URL loop (monitor.js lines 262-306).  A capture
error is caught and recorded (lines 269-274); the capture is written into
the run directory (line 276); an absent baseline is seeded (lines 278-283);
otherwise the baseline is read (line 285, whose failure is fatal to the run
and returns `Except.error` carrying the state reached), the images are
diffed, and on a changed decision the diff image is persisted, a change
entry appended and the baseline replaced (lines 292-305). -/
def processTarget (cfg : Config) (env : Env) (st : RunState) (url : String) :
    Except RunState RunState :=
  let slug := env.slug url
  match env.capture url with
  | .error msg =>
      .ok { st with changes := st.changes ++ [.failure url ("CAPTURE FAILED: " ++ msg)] }
  | .ok currentBuf =>
      let st1 : RunState := { st with runFiles := fupdate st.runFiles slug currentBuf }
      match st1.baselines slug with
      | none =>
          .ok { st1 with
                  baselines := fupdate st1.baselines slug currentBuf,
                  seededBaselines := st1.seededBaselines + 1 }
      | some baselineBuf =>
          if env.readBaselineFails slug then .error st1
          else
            let d := diffPngs cfg.pixelmatchThreshold baselineBuf currentBuf
            if changedOf d.ratio cfg.changeThresholdRatio then
              .ok { st1 with
                      diffs := st1.diffs ++ [(slug, d)],
                      changes := st1.changes ++
                        [.change url d.ratio d.diffPixels d.totalPixels],
                      baselines := fupdate st1.baselines slug currentBuf }
            else .ok st1

/-- The target loop itself (`for (const url of urls)`, monitor.js line 262):
targets are processed strictly sequentially, and a fatal error short-circuits
the remaining targets. -/
def runTargets (cfg : Config) (env : Env) : List String → RunState →
    Except RunState RunState
  | [], st => .ok st
  | url :: rest, st =>
      match processTarget cfg env st url with
      | .error st1 => .error st1
      | .ok st1 => runTargets cfg env rest st1

/-- The PNG-attachment loop of monitor.js lines 341-347: walk the (already
`slice(0, maxPngs)`-truncated) diff file list in order, stop (`break`) as
soon as the next file would push the cumulative byte count over `maxBytes`,
and otherwise attach it.  Returns the attached files and the final
cumulative byte count. -/
def addPngs (maxBytes : Nat) : List (String × Nat) → Nat → List (String × Nat) × Nat
  | [], acc => ([], acc)
  | (f, sz) :: rest, acc =>
      if acc + sz > maxBytes then ([], acc)
      else
        let r := addPngs maxBytes rest (acc + sz)
        ((f, sz) :: r.1, r.2)

/-- The attachment-set construction of monitor.js lines 328-347: no
attachment at all when no diff file exists; otherwise the zip of all diffs
(attached unconditionally, its size counted into the budget) followed by up
to `maxPngs` individual diff images within the `maxBytes` budget. -/
def buildAttachments (maxPngs maxBytes zipSize : Nat) (diffFiles : List (String × Nat)) :
    List (String × Nat) × Nat :=
  if diffFiles.isEmpty then ([], 0)
  else
    let r := addPngs maxBytes (diffFiles.take maxPngs) zipSize
    (("diffs.zip", zipSize) :: r.1, r.2)

/-- The observable outcome of one invocation of `main` (monitor.js
lines 237-373): the final loop state, whether a fatal error aborted the run,
whether the browser shutdown of lines 308-310 executed, whether and with
which message `gitCommitIfNeeded` was invoked (lines 312-319), how many
emails were dispatched and with which subject and attachments
(lines 321-372). -/
structure MainOutcome where
  finalState : RunState
  fatal : Bool
  browserClosed : Bool
  commitInvoked : Bool
  commitMsg : Option String
  emailsSent : Nat
  emailSubject : Option String
  attachments : List (String × Nat)
  attachmentBytes : Nat

/-- One invocation of `main` (monitor.js lines 237-373), starting from the
baselines persisted by earlier runs.  The browser shutdown (lines 308-310)
is written after the loop with no enclosing `try`/`finally`, so a fatal
error inside the loop propagates past it; the commit step runs when any
baseline was seeded or any change recorded; the email step is skipped when
`changes` is empty and otherwise dispatches exactly one email whose subject
counts the report entries.  (The plain-text body of lines 350-366 is not
modelled.) -/
def mainRun (cfg : Config) (env : Env) (baselines0 : String → Option Img) :
    MainOutcome :=
  let st0 : RunState := ⟨baselines0, fun _ => none, [], [], 0⟩
  match runTargets cfg env cfg.urls st0 with
  | .error st =>
      ⟨st, true, false, false, none, 0, none, [], 0⟩
  | .ok st =>
      let commit := st.seededBaselines > 0 || st.changes.length > 0
      let msg :=
        if st.seededBaselines > 0 && st.changes.length == 0 then
          "Seed baselines (" ++ toString st.seededBaselines ++ ")"
        else
          "Update baselines (" ++ toString st.changes.length ++ " change(s))"
      if st.changes.isEmpty then
        ⟨st, false, true, commit, if commit then some msg else none, 0, none, [], 0⟩
      else
        let diffFiles := st.diffs.map (fun p => (p.1 ++ ".diff.png", env.diffFileSize p.1))
        let att := buildAttachments cfg.attachMaxPngs cfg.maxAttachmentBytes
          env.zipSize diffFiles
        ⟨st, false, true, commit, if commit then some msg else none, 1,
          some ("Milltech visual change detected (" ++ toString st.changes.length ++ ")"),
          att.1, att.2⟩

/-! ### Helper lemmas about the image model -/

theorem getPix_mkImg {W H x y : Nat} (f : Nat → Nat → Pix) (hx : x < W) (hy : y < H) :
    getPix (mkImg W H f) x y = f x y := by
  have hW : 0 < W := Nat.lt_of_le_of_lt (Nat.zero_le x) hx
  have hidx : y * W + x < W * H := by
    have h1 : y * W + x < (y + 1) * W := by
      calc y * W + x < y * W + W := Nat.add_lt_add_left hx _
        _ = (y + 1) * W := by ring
    have h2 : (y + 1) * W ≤ H * W := Nat.mul_le_mul_right W (Nat.succ_le_of_lt hy)
    calc y * W + x < (y + 1) * W := h1
      _ ≤ H * W := h2
      _ = W * H := Nat.mul_comm H W
  have hmod : (y * W + x) % W = x := by
    rw [Nat.mul_comm y W, Nat.mul_add_mod, Nat.mod_eq_of_lt hx]
  have hdiv : (y * W + x) / W = y := by
    rw [Nat.mul_comm y W, Nat.mul_add_div hW, Nat.div_eq_of_lt hx, Nat.add_zero]
  unfold getPix mkImg
  simp only [if_pos (And.intro hx hy), List.getD_eq_getElem?_getD, List.getElem?_map,
    List.getElem?_range hidx, Option.map_some', Option.getD_some, hmod, hdiv]

theorem getPix_padTo {W H x y : Nat} (i : Img) (hx : x < W) (hy : y < H) :
    getPix (padTo W H i) x y =
      if x < i.width ∧ y < i.height then getPix i x y else zeroPix := by
  unfold padTo
  by_cases h : i.width = W ∧ i.height = H
  · rw [if_pos h]
    by_cases hc : x < i.width ∧ y < i.height
    · rw [if_pos hc]
    · rw [if_neg hc]
      unfold getPix
      rw [if_neg hc]
  · rw [if_neg h, getPix_mkImg _ hx hy]

theorem pixDiffers_self (t : Nat) (p : Pix) : pixDiffers t p p = false := by
  simp [pixDiffers]

theorem pixelmatchCount_same (t : Nat) (a : Img) (W H : Nat) :
    pixelmatchCount t a a W H = 0 := by
  unfold pixelmatchCount
  rw [List.filter_congr (q := fun _ => false)
    (fun k _ => pixDiffers_self t (getPix a (k % W) (k / W)))]
  simp

theorem length_filter_range_ge (n m : Nat) :
    ((List.range n).filter (fun k => decide (m ≤ k))).length = n - m := by
  induction n with
  | zero => simp
  | succ n ih =>
      rw [List.range_succ, List.filter_append, List.length_append, ih]
      by_cases h : m ≤ n
      · have : (List.filter (fun k => decide (m ≤ k)) [n]).length = 1 := by simp [h]
        rw [this]; omega
      · have : (List.filter (fun k => decide (m ≤ k)) [n]).length = 0 := by simp [h]
        rw [this]; omega

theorem diffPngs_diffPixels (t : Nat) (i1 i2 : Img) :
    (diffPngs t i1 i2).diffPixels =
      pixelmatchCount t (padTo (max i1.width i2.width) (max i1.height i2.height) i1)
        (padTo (max i1.width i2.width) (max i1.height i2.height) i2)
        (max i1.width i2.width) (max i1.height i2.height) := rfl

theorem diffPngs_totalPixels (t : Nat) (i1 i2 : Img) :
    (diffPngs t i1 i2).totalPixels =
      max i1.width i2.width * max i1.height i2.height := rfl

theorem diffPngs_ratio (t : Nat) (i1 i2 : Img) :
    (diffPngs t i1 i2).ratio =
      ((diffPngs t i1 i2).diffPixels : ℚ) / ((diffPngs t i1 i2).totalPixels : ℚ) := rfl

theorem pixelmatchCount_taller (t : Nat) (img1 img2 : Img)
    (hcontent : ∀ x, x < img1.width → ∀ y, y < img1.height →
      getPix img1 x y = getPix img2 x y)
    (hadded : ∀ x, x < img1.width → ∀ y, y < img2.height → img1.height ≤ y →
      pixDiffers t zeroPix (getPix img2 x y) = true) :
    pixelmatchCount t (padTo img1.width img2.height img1) img2 img1.width img2.height =
      img1.width * (img2.height - img1.height) := by
  unfold pixelmatchCount
  rcases Nat.eq_zero_or_pos img1.width with hW0 | hWpos
  · rw [hW0]; simp
  · have hcong : ∀ k ∈ List.range (img1.width * img2.height),
        pixDiffers t
            (getPix (padTo img1.width img2.height img1) (k % img1.width) (k / img1.width))
            (getPix img2 (k % img1.width) (k / img1.width))
          = decide (img1.width * img1.height ≤ k) := by
      intro k hk
      rw [List.mem_range] at hk
      have hx : k % img1.width < img1.width := Nat.mod_lt _ hWpos
      have hy : k / img1.width < img2.height := Nat.div_lt_of_lt_mul hk
      have hk_eq : img1.width * (k / img1.width) + k % img1.width = k :=
        Nat.div_add_mod k img1.width
      rw [getPix_padTo img1 hx hy]
      by_cases hy1 : k / img1.width < img1.height
      · rw [if_pos ⟨hx, hy1⟩, hcontent _ hx _ hy1, pixDiffers_self]
        have hlt : ¬ img1.width * img1.height ≤ k := by
          have h2 : img1.width * (k / img1.width + 1) ≤ img1.width * img1.height :=
            Nat.mul_le_mul_left _ (Nat.succ_le_of_lt hy1)
          rw [Nat.mul_add, Nat.mul_one] at h2
          omega
        simp [hlt]
      · have hy1' : img1.height ≤ k / img1.width := Nat.le_of_not_lt hy1
        have hcond : ¬ (k % img1.width < img1.width ∧ k / img1.width < img1.height) :=
          fun hc => hy1 hc.2
        rw [if_neg hcond, hadded _ hx _ hy hy1']
        have hge : img1.width * img1.height ≤ k := by
          have h2 : img1.width * img1.height ≤ img1.width * (k / img1.width) :=
            Nat.mul_le_mul_left _ hy1'
          omega
        simp [hge]
    rw [List.filter_congr hcong, length_filter_range_ge, ← Nat.mul_sub]

/-! ### Concrete fixtures used by witness and counterexample theorems -/

def whitePix : Pix := ⟨255, 255, 255, 255⟩

def blackPix : Pix := ⟨0, 0, 0, 255⟩

def imgWhite1x1 : Img := ⟨1, 1, [whitePix]⟩

def imgBlack1x1 : Img := ⟨1, 1, [blackPix]⟩

def imgWhiteBlack1x2 : Img := ⟨1, 2, [whitePix, blackPix]⟩

def imgZero1x1 : Img := ⟨1, 1, [zeroPix]⟩

def imgZero1x2 : Img := ⟨1, 2, [zeroPix, zeroPix]⟩

/-! ### Claim theorems -/

/-- C1: for every comparison of a current capture against an existing baseline
with configured change-ratio threshold `T`, the decision of monitor.js line 292
(`ratio >= changeThresholdRatio`) is `Changed` exactly when the computed ratio
is `≥ T` and `Unchanged` exactly when the ratio is `< T`; in particular a ratio
exactly equal to `T` yields `Changed`. -/
theorem changedOf_threshold_decision (r T : ℚ) :
    (changedOf r T = true ↔ T ≤ r) ∧ (changedOf r T = false ↔ r < T) ∧
    changedOf T T = true := by
  refine ⟨?_, ?_, ?_⟩ <;> simp [changedOf, not_le]

/-- C9: diffing any raster image against itself, at any pixel tolerance,
yields zero differing pixels and hence ratio 0, and the line-292 decision on
that result is `Unchanged` for every configured change-ratio threshold
strictly greater than 0. -/
theorem diffPngs_self_zero_unchanged (t : Nat) (img : Img) (T : ℚ) (hT : 0 < T) :
    (diffPngs t img img).diffPixels = 0 ∧ (diffPngs t img img).ratio = 0 ∧
    changedOf (diffPngs t img img).ratio T = false := by
  have h0 : (diffPngs t img img).diffPixels = 0 := by
    rw [diffPngs_diffPixels, pixelmatchCount_same]
  have hr : (diffPngs t img img).ratio = 0 := by
    rw [diffPngs_ratio, h0]
    simp
  refine ⟨h0, hr, ?_⟩
  rw [hr]
  exact decide_eq_false (not_le.mpr hT)

/-- Witness for C9 at a concrete image and threshold 1. -/
theorem diffPngs_self_zero_unchanged_witness :
    (diffPngs 0 imgWhite1x1 imgWhite1x1).diffPixels = 0 ∧
    (diffPngs 0 imgWhite1x1 imgWhite1x1).ratio = 0 ∧
    changedOf (diffPngs 0 imgWhite1x1 imgWhite1x1).ratio 1 = false :=
  diffPngs_self_zero_unchanged 0 imgWhite1x1 1 (by norm_num)

/-- C4 (counterexample): a current capture one transparent-black row taller
than a transparent-black baseline differs from it only in height, with
identical pixel content on the common row, yet the added region does not
register as differing at tolerance 0: the diff ratio is 0, not the
added-area fraction 1/2 of the padded canvas. -/
theorem diffPngs_blank_taller_not_registered :
    imgZero1x2.width = imgZero1x1.width ∧
    imgZero1x1.height + 1 = imgZero1x2.height ∧
    getPix imgZero1x1 0 0 = getPix imgZero1x2 0 0 ∧
    (diffPngs 0 imgZero1x1 imgZero1x2).diffPixels = 0 ∧
    (diffPngs 0 imgZero1x1 imgZero1x2).ratio ≠ 1 / 2 := by
  have h0 : (diffPngs 0 imgZero1x1 imgZero1x2).diffPixels = 0 := by decide
  refine ⟨by decide, by decide, by decide, h0, ?_⟩
  rw [diffPngs_ratio, h0]
  norm_num

/-- C4 (amended): `diffPngs` normalises both inputs onto a canvas whose width
and height are the maxima of the two inputs' dimensions, copying each image
into the top-left of a zero-initialised canvas; and for a pair differing only
in that the current image is strictly taller with identical pixel content on
the common rows, provided every added pixel differs from the blank padding by
more than the pixel tolerance, the whole added region registers as differing
and the ratio equals the added area divided by the padded canvas area. -/
theorem diffPngs_taller_current_ratio (t : Nat) (img1 img2 : Img)
    (hw : img2.width = img1.width) (hh : img1.height < img2.height)
    (hcontent : ∀ x, x < img1.width → ∀ y, y < img1.height →
      getPix img1 x y = getPix img2 x y)
    (hadded : ∀ x, x < img1.width → ∀ y, y < img2.height → img1.height ≤ y →
      pixDiffers t zeroPix (getPix img2 x y) = true) :
    (∀ (i : Img) (W H x y : Nat), x < W → y < H →
        getPix (padTo W H i) x y =
          if x < i.width ∧ y < i.height then getPix i x y else zeroPix) ∧
    (diffPngs t img1 img2).totalPixels = img1.width * img2.height ∧
    (diffPngs t img1 img2).diffPixels = img1.width * (img2.height - img1.height) ∧
    (diffPngs t img1 img2).ratio =
      ((img1.width * (img2.height - img1.height) : Nat) : ℚ) /
        ((img1.width * img2.height : Nat) : ℚ) := by
  have hWmax : max img1.width img2.width = img1.width := by
    rw [hw, Nat.max_self]
  have hHmax : max img1.height img2.height = img2.height :=
    Nat.max_eq_right (Nat.le_of_lt hh)
  have hb : padTo (max img1.width img2.width) (max img1.height img2.height) img2 = img2 := by
    rw [hWmax, hHmax]
    unfold padTo
    rw [if_pos ⟨hw, rfl⟩]
  have htot : (diffPngs t img1 img2).totalPixels = img1.width * img2.height := by
    rw [diffPngs_totalPixels, hWmax, hHmax]
  have hcount : (diffPngs t img1 img2).diffPixels =
      img1.width * (img2.height - img1.height) := by
    rw [diffPngs_diffPixels, hb, hWmax, hHmax,
      pixelmatchCount_taller t img1 img2 hcontent hadded]
  refine ⟨fun i W H x y hx hy => getPix_padTo i hx hy, htot, hcount, ?_⟩
  rw [diffPngs_ratio, hcount, htot]

/-- Witness for C4 (amended): a white 1×1 baseline against a 1×2 current
capture whose added row is opaque black; the added pixel registers and the
ratio is 1/2. -/
theorem diffPngs_taller_current_ratio_witness :
    (∀ (i : Img) (W H x y : Nat), x < W → y < H →
        getPix (padTo W H i) x y =
          if x < i.width ∧ y < i.height then getPix i x y else zeroPix) ∧
    (diffPngs 0 imgWhite1x1 imgWhiteBlack1x2).totalPixels = 1 * 2 ∧
    (diffPngs 0 imgWhite1x1 imgWhiteBlack1x2).diffPixels = 1 * (2 - 1) ∧
    (diffPngs 0 imgWhite1x1 imgWhiteBlack1x2).ratio =
      ((1 * (2 - 1) : Nat) : ℚ) / ((1 * 2 : Nat) : ℚ) :=
  diffPngs_taller_current_ratio 0 imgWhite1x1 imgWhiteBlack1x2 (by decide) (by decide)
    (by decide) (by decide)

/-- C2: for every target whose comparison yields a `Changed` outcome, the loop
body persists the diff image, appends a change entry carrying the ratio,
differing-pixel count and total-pixel count to the report, and replaces the
stored baseline so that it equals the just-captured image bit-for-bit. -/
theorem processTarget_changed_updates (cfg : Config) (env : Env) (st : RunState)
    (url : String) (cur base : Img)
    (hcap : env.capture url = .ok cur)
    (hbase : st.baselines (env.slug url) = some base)
    (hread : env.readBaselineFails (env.slug url) = false)
    (hchanged : changedOf (diffPngs cfg.pixelmatchThreshold base cur).ratio
      cfg.changeThresholdRatio = true) :
    processTarget cfg env st url = .ok
      { st with
          runFiles := fupdate st.runFiles (env.slug url) cur,
          diffs := st.diffs ++
            [(env.slug url, diffPngs cfg.pixelmatchThreshold base cur)],
          changes := st.changes ++
            [.change url (diffPngs cfg.pixelmatchThreshold base cur).ratio
              (diffPngs cfg.pixelmatchThreshold base cur).diffPixels
              (diffPngs cfg.pixelmatchThreshold base cur).totalPixels],
          baselines := fupdate st.baselines (env.slug url) cur } ∧
    fupdate st.baselines (env.slug url) cur (env.slug url) = some cur := by
  constructor
  · simp [processTarget, hcap, hbase, hread, hchanged]
  · simp [fupdate]

/-- Witness for C2: a one-pixel baseline replaced after a full-contrast
change at threshold 1/2. -/
theorem processTarget_changed_updates_witness :
    processTarget ⟨["u"], 0, 1 / 2, 6, 20000000⟩
        ⟨fun _ => .ok imgBlack1x1, id, fun _ => false, 0, fun _ => 0⟩
        ⟨fun s => if s = "u" then some imgWhite1x1 else none, fun _ => none, [], [], 0⟩
        "u" = .ok
      { baselines := fupdate (fun s => if s = "u" then some imgWhite1x1 else none)
          (id "u") imgBlack1x1,
        runFiles := fupdate (fun _ => none) (id "u") imgBlack1x1,
        diffs := [] ++ [(id "u", diffPngs 0 imgWhite1x1 imgBlack1x1)],
        changes := [] ++
          [.change "u" (diffPngs 0 imgWhite1x1 imgBlack1x1).ratio
            (diffPngs 0 imgWhite1x1 imgBlack1x1).diffPixels
            (diffPngs 0 imgWhite1x1 imgBlack1x1).totalPixels],
        seededBaselines := 0 } ∧
    fupdate (fun s => if s = "u" then some imgWhite1x1 else none) (id "u") imgBlack1x1
      (id "u") = some imgBlack1x1 := by
  have hd : (diffPngs 0 imgWhite1x1 imgBlack1x1).diffPixels = 1 := by decide
  have ht : (diffPngs 0 imgWhite1x1 imgBlack1x1).totalPixels = 1 := by decide
  have hr : (diffPngs 0 imgWhite1x1 imgBlack1x1).ratio = 1 := by
    rw [diffPngs_ratio, hd, ht]
    norm_num
  have hchanged : changedOf (diffPngs 0 imgWhite1x1 imgBlack1x1).ratio (1 / 2) = true := by
    rw [hr]
    simp only [changedOf, ge_iff_le, decide_eq_true_eq]
    norm_num
  exact processTarget_changed_updates _ _ _ "u" imgBlack1x1 imgWhite1x1 rfl (by decide)
    rfl hchanged

/-- C3: for every target with no existing baseline whose capture succeeds, the
loop body writes the current capture as that target's baseline, bumps the
seeded-baselines counter, and appends no entry to the report and no diff
image, regardless of the image's content. -/
theorem processTarget_seeds_absent_baseline (cfg : Config) (env : Env)
    (st : RunState) (url : String) (cur : Img)
    (hcap : env.capture url = .ok cur)
    (hbase : st.baselines (env.slug url) = none) :
    processTarget cfg env st url = .ok
      { st with
          runFiles := fupdate st.runFiles (env.slug url) cur,
          baselines := fupdate st.baselines (env.slug url) cur,
          seededBaselines := st.seededBaselines + 1 } ∧
    fupdate st.baselines (env.slug url) cur (env.slug url) = some cur ∧
    ({ st with
          runFiles := fupdate st.runFiles (env.slug url) cur,
          baselines := fupdate st.baselines (env.slug url) cur,
          seededBaselines := st.seededBaselines + 1 } : RunState).changes = st.changes ∧
    ({ st with
          runFiles := fupdate st.runFiles (env.slug url) cur,
          baselines := fupdate st.baselines (env.slug url) cur,
          seededBaselines := st.seededBaselines + 1 } : RunState).diffs = st.diffs := by
  refine ⟨?_, by simp [fupdate], rfl, rfl⟩
  simp only [processTarget, hcap, hbase]

/-- Witness for C3 at a concrete empty baseline store. -/
theorem processTarget_seeds_absent_baseline_witness :
    processTarget ⟨["u"], 0, 1 / 2, 6, 20000000⟩
        ⟨fun _ => .ok imgBlack1x1, id, fun _ => false, 0, fun _ => 0⟩
        ⟨fun _ => none, fun _ => none, [], [], 0⟩ "u" = .ok
      { baselines := fupdate (fun _ => none) (id "u") imgBlack1x1,
        runFiles := fupdate (fun _ => none) (id "u") imgBlack1x1,
        diffs := [],
        changes := [],
        seededBaselines := 0 + 1 } ∧
    fupdate (fun _ => none) (id "u") imgBlack1x1 (id "u") = some imgBlack1x1 ∧
    ([] : List Entry) = [] ∧
    ([] : List (String × DiffResult)) = [] := by
  have h := processTarget_seeds_absent_baseline ⟨["u"], 0, 1 / 2, 6, 20000000⟩
    ⟨fun _ => .ok imgBlack1x1, id, fun _ => false, 0, fun _ => 0⟩
    ⟨fun _ => none, fun _ => none, [], [], 0⟩ "u" imgBlack1x1 rfl rfl
  exact ⟨h.1, h.2.1, rfl, rfl⟩

/-- C7: for every target whose comparison yields a ratio strictly below the
configured threshold, the loop body leaves the stored baseline byte-for-byte
unchanged, persists no diff image, and appends no entry to the report (only
the scratch run-directory copy of the capture is written). -/
theorem processTarget_unchanged_no_mutation (cfg : Config) (env : Env)
    (st : RunState) (url : String) (cur base : Img)
    (hcap : env.capture url = .ok cur)
    (hbase : st.baselines (env.slug url) = some base)
    (hread : env.readBaselineFails (env.slug url) = false)
    (hlt : (diffPngs cfg.pixelmatchThreshold base cur).ratio < cfg.changeThresholdRatio) :
    processTarget cfg env st url = .ok
      { st with runFiles := fupdate st.runFiles (env.slug url) cur } ∧
    ({ st with runFiles := fupdate st.runFiles (env.slug url) cur } : RunState).baselines
        = st.baselines ∧
    ({ st with runFiles := fupdate st.runFiles (env.slug url) cur } : RunState).diffs
        = st.diffs ∧
    ({ st with runFiles := fupdate st.runFiles (env.slug url) cur } : RunState).changes
        = st.changes ∧
    ({ st with runFiles := fupdate st.runFiles (env.slug url) cur } : RunState).seededBaselines
        = st.seededBaselines := by
  have hchanged : changedOf (diffPngs cfg.pixelmatchThreshold base cur).ratio
      cfg.changeThresholdRatio = false := decide_eq_false (not_le.mpr hlt)
  refine ⟨?_, rfl, rfl, rfl, rfl⟩
  simp [processTarget, hcap, hbase, hread, hchanged]

/-- Witness for C7: identical baseline and capture at threshold 1/2 leave the
state unmutated apart from the run-directory copy. -/
theorem processTarget_unchanged_no_mutation_witness :
    processTarget ⟨["u"], 0, 1 / 2, 6, 20000000⟩
        ⟨fun _ => .ok imgWhite1x1, id, fun _ => false, 0, fun _ => 0⟩
        ⟨fun s => if s = "u" then some imgWhite1x1 else none, fun _ => none, [], [], 0⟩
        "u" = .ok
      { baselines := fun s => if s = "u" then some imgWhite1x1 else none,
        runFiles := fupdate (fun _ => none) (id "u") imgWhite1x1,
        diffs := [],
        changes := [],
        seededBaselines := 0 } ∧
    (fun s => if s = "u" then some imgWhite1x1 else none) =
      (fun s => if s = "u" then some imgWhite1x1 else none) ∧
    ([] : List (String × DiffResult)) = [] ∧
    ([] : List Entry) = [] ∧
    (0 : Nat) = 0 := by
  have h0 : (diffPngs 0 imgWhite1x1 imgWhite1x1).diffPixels = 0 := by decide
  have hr : (diffPngs 0 imgWhite1x1 imgWhite1x1).ratio = 0 := by
    rw [diffPngs_ratio, h0]
    norm_num
  have hlt : (diffPngs 0 imgWhite1x1 imgWhite1x1).ratio < 1 / 2 := by
    rw [hr]
    norm_num
  have h := processTarget_unchanged_no_mutation ⟨["u"], 0, 1 / 2, 6, 20000000⟩
    ⟨fun _ => .ok imgWhite1x1, id, fun _ => false, 0, fun _ => 0⟩
    ⟨fun s => if s = "u" then some imgWhite1x1 else none, fun _ => none, [], [], 0⟩
    "u" imgWhite1x1 imgWhite1x1 rfl rfl rfl hlt
  exact ⟨h.1, rfl, rfl, rfl, rfl⟩

theorem addPngs_spec (B : Nat) (l : List (String × Nat)) : ∀ acc : Nat,
    (addPngs B l acc).1.length ≤ l.length ∧
    (addPngs B l acc).2 = acc + ((addPngs B l acc).1.map Prod.snd).sum ∧
    (acc ≤ B → (addPngs B l acc).2 ≤ B) ∧
    (addPngs B l acc).1 <+: l := by
  induction l with
  | nil =>
      intro acc
      simp [addPngs]
  | cons p rest ih =>
      intro acc
      obtain ⟨f, sz⟩ := p
      by_cases h : acc + sz > B
      · simp only [addPngs, if_pos h]
        refine ⟨Nat.zero_le _, by simp, fun hacc => hacc, List.nil_prefix⟩
      · have ihr := ih (acc + sz)
        simp only [addPngs, if_neg h]
        refine ⟨?_, ?_, ?_, ?_⟩
        · exact Nat.succ_le_succ ihr.1
        · have hsum := ihr.2.1
          simp only [List.map_cons, List.sum_cons]
          omega
        · intro hacc
          exact ihr.2.2.1 (Nat.le_of_not_lt h)
        · obtain ⟨tl, htl⟩ := ihr.2.2.2
          exact ⟨tl, by rw [List.cons_append, htl]⟩

/-- C5 (counterexample): with byte cap `B = 5` and an archive of 10 bytes the
notification's attachment set is the archive alone and its cumulative byte
size is 10 > B: the archive is attached regardless of the byte budget, so the
cumulative attachment size is not bounded by B. -/
theorem buildAttachments_zip_exceeds_budget :
    (buildAttachments 6 5 10 [("a.diff.png", 1)]).1 = [("diffs.zip", 10)] ∧
    ((buildAttachments 6 5 10 [("a.diff.png", 1)]).1.map Prod.snd).sum = 10 ∧
    ¬ ((buildAttachments 6 5 10 [("a.diff.png", 1)]).1.map Prod.snd).sum ≤ 5 := by
  decide

/-- C5 (amended): for a run with diff images `files` and caps of `K`
individual images and `B` cumulative bytes, the attachment set starts with
the archive exactly when at least one diff image exists, carries at most
`min N K` individual images which form an in-order prefix of the first `K`
diff files (once the budget is exhausted later images are dropped, not
replaced or resized), and — provided the archive itself fits the byte cap —
the cumulative attachment byte size is at most `B`. -/
theorem buildAttachments_caps (K B zip : Nat) (files : List (String × Nat))
    (hzip : zip ≤ B) :
    ((buildAttachments K B zip files).1.head? = some ("diffs.zip", zip) ↔ files ≠ []) ∧
    (buildAttachments K B zip files).1.length ≤ 1 + min files.length K ∧
    (buildAttachments K B zip files).2 =
      ((buildAttachments K B zip files).1.map Prod.snd).sum ∧
    ((buildAttachments K B zip files).1.map Prod.snd).sum ≤ B ∧
    (buildAttachments K B zip files).1.drop 1 <+: files.take K := by
  by_cases hf : files.isEmpty
  · have hnil : files = [] := by
      cases files with
      | nil => rfl
      | cons a l => simp at hf
    subst hnil
    simp [buildAttachments]
  · have hne : files ≠ [] := by
      cases files with
      | nil => simp at hf
      | cons a l => exact List.cons_ne_nil a l
    have spec := addPngs_spec B (files.take K) zip
    simp only [buildAttachments, if_neg hf]
    refine ⟨by simp [hne], ?_, ?_, ?_, ?_⟩
    · have h1 := spec.1
      have h2 : (files.take K).length = min K files.length := List.length_take K files
      simp only [List.length_cons]
      omega
    · have hsum := spec.2.1
      simp only [List.map_cons, List.sum_cons]
      omega
    · have hb := spec.2.2.1 hzip
      have hsum := spec.2.1
      simp only [List.map_cons, List.sum_cons]
      omega
    · simpa using spec.2.2.2

/-- Witness for C5 (amended) at a concrete archive and one diff image. -/
theorem buildAttachments_caps_witness :
    ((buildAttachments 6 5 1 [("a.diff.png", 3)]).1.head? = some ("diffs.zip", 1) ↔
      ([("a.diff.png", 3)] : List (String × Nat)) ≠ []) ∧
    (buildAttachments 6 5 1 [("a.diff.png", 3)]).1.length ≤
      1 + min ([("a.diff.png", 3)] : List (String × Nat)).length 6 ∧
    (buildAttachments 6 5 1 [("a.diff.png", 3)]).2 =
      ((buildAttachments 6 5 1 [("a.diff.png", 3)]).1.map Prod.snd).sum ∧
    ((buildAttachments 6 5 1 [("a.diff.png", 3)]).1.map Prod.snd).sum ≤ 5 ∧
    (buildAttachments 6 5 1 [("a.diff.png", 3)]).1.drop 1 <+:
      ([("a.diff.png", 3)] : List (String × Nat)).take 6 :=
  buildAttachments_caps 6 5 1 [("a.diff.png", 3)] (by decide)

/-- Whether the target loop completed without a fatal error. -/
def exceptIsOk : Except RunState RunState → Bool
  | .ok _ => true
  | .error _ => false

theorem processTarget_ok_of_read_ok (cfg : Config) (env : Env) (st : RunState)
    (url : String) (h : env.readBaselineFails (env.slug url) = false) :
    ∃ st1, processTarget cfg env st url = .ok st1 := by
  unfold processTarget
  cases hcap : env.capture url with
  | error msg => exact ⟨_, rfl⟩
  | ok cur =>
      cases hbase : st.baselines (env.slug url) with
      | none =>
          refine ⟨{ st with
              runFiles := fupdate st.runFiles (env.slug url) cur,
              baselines := fupdate st.baselines (env.slug url) cur,
              seededBaselines := st.seededBaselines + 1 }, ?_⟩
          simp [hbase]
      | some base =>
          by_cases hch : changedOf (diffPngs cfg.pixelmatchThreshold base cur).ratio
              cfg.changeThresholdRatio = true
          · refine ⟨{ st with
                runFiles := fupdate st.runFiles (env.slug url) cur,
                diffs := st.diffs ++
                  [(env.slug url, diffPngs cfg.pixelmatchThreshold base cur)],
                changes := st.changes ++
                  [.change url (diffPngs cfg.pixelmatchThreshold base cur).ratio
                    (diffPngs cfg.pixelmatchThreshold base cur).diffPixels
                    (diffPngs cfg.pixelmatchThreshold base cur).totalPixels],
                baselines := fupdate st.baselines (env.slug url) cur }, ?_⟩
            simp [hbase, h, hch]
          · rw [Bool.not_eq_true] at hch
            refine ⟨{ st with runFiles := fupdate st.runFiles (env.slug url) cur }, ?_⟩
            simp [hbase, h, hch]

theorem runTargets_ok_of_read_ok (cfg : Config) (env : Env)
    (h : ∀ s, env.readBaselineFails s = false) (urls : List String) :
    ∀ st : RunState, exceptIsOk (runTargets cfg env urls st) = true := by
  induction urls with
  | nil => intro st; rfl
  | cons url rest ih =>
      intro st
      obtain ⟨st1, h1⟩ := processTarget_ok_of_read_ok cfg env st url (h _)
      unfold runTargets
      rw [h1]
      exact ih st1

theorem mainRun_fatal_iff (cfg : Config) (env : Env) (b0 : String → Option Img) :
    (mainRun cfg env b0).fatal = false ↔
      exceptIsOk (runTargets cfg env cfg.urls ⟨b0, fun _ => none, [], [], 0⟩) = true := by
  simp only [mainRun]
  cases runTargets cfg env cfg.urls ⟨b0, fun _ => none, [], [], 0⟩ with
  | error st => simp [exceptIsOk]
  | ok st => by_cases hc : st.changes.isEmpty <;> simp [exceptIsOk, hc]

theorem mainRun_browserClosed_iff (cfg : Config) (env : Env) (b0 : String → Option Img) :
    (mainRun cfg env b0).browserClosed =
      exceptIsOk (runTargets cfg env cfg.urls ⟨b0, fun _ => none, [], [], 0⟩) := by
  simp only [mainRun]
  cases runTargets cfg env cfg.urls ⟨b0, fun _ => none, [], [], 0⟩ with
  | error st => simp [exceptIsOk]
  | ok st => by_cases hc : st.changes.isEmpty <;> simp [exceptIsOk, hc]

def cfgOneUrl : Config := ⟨["u"], 0, 1 / 2, 6, 20000000⟩

def envCaptureFail : Env := ⟨fun _ => .error "net::TIMEOUT", id, fun _ => false, 0, fun _ => 0⟩

def envReadFail : Env := ⟨fun _ => .ok imgWhite1x1, id, fun _ => true, 0, fun _ => 0⟩

def baselinesU : String → Option Img := fun s => if s = "u" then some imgWhite1x1 else none

/-- C6: for every run that completes target processing without a fatal IO
error, exactly one notification is dispatched if the run's report contains at
least one change entry or capture failure, and none if the report is empty;
the number of notifications never depends on how many targets changed. -/
theorem mainRun_single_notification (cfg : Config) (env : Env)
    (b0 : String → Option Img)
    (h : (mainRun cfg env b0).fatal = false) :
    (mainRun cfg env b0).emailsSent =
      if (mainRun cfg env b0).finalState.changes.isEmpty then 0 else 1 := by
  simp only [mainRun] at h ⊢
  cases hrun : runTargets cfg env cfg.urls ⟨b0, fun _ => none, [], [], 0⟩ with
  | error st =>
      rw [hrun] at h
      simp at h
  | ok st =>
      by_cases hc : st.changes.isEmpty <;> simp [hc]

/-- Witness for C6: a run whose only target fails to capture dispatches
exactly one notification. -/
theorem mainRun_single_notification_witness :
    (mainRun cfgOneUrl envCaptureFail (fun _ => none)).emailsSent =
      if (mainRun cfgOneUrl envCaptureFail (fun _ => none)).finalState.changes.isEmpty
      then 0 else 1 :=
  mainRun_single_notification cfgOneUrl envCaptureFail (fun _ => none) (by decide)

/-- C8 (counterexample): with an existing baseline whose read fails — a
comparison/IO failure that is fatal to the run — `main` aborts without
executing the browser/page/context shutdown of lines 308-310: the shutdown is
straight-line code after the loop, not guaranteed-release scoping. -/
theorem mainRun_fatal_skips_shutdown :
    (mainRun cfgOneUrl envReadFail baselinesU).fatal = true ∧
    (mainRun cfgOneUrl envReadFail baselinesU).browserClosed = false := by
  decide

/-- C8 (amended): the browser/page/context shutdown executes exactly in the
runs whose target processing completes without a fatal IO error; per-target
capture failures never prevent it (a run whose baseline reads all succeed
never aborts), but a fatal baseline-read error skips the shutdown. -/
theorem mainRun_shutdown_no_fatal :
    (∀ (cfg : Config) (env : Env) (b0 : String → Option Img),
      (mainRun cfg env b0).fatal = false →
        (mainRun cfg env b0).browserClosed = true) ∧
    (∀ (cfg : Config) (env : Env) (b0 : String → Option Img),
      (∀ s, env.readBaselineFails s = false) →
        (mainRun cfg env b0).fatal = false ∧
        (mainRun cfg env b0).browserClosed = true) := by
  have key : ∀ (cfg : Config) (env : Env) (b0 : String → Option Img),
      (mainRun cfg env b0).fatal = false →
        (mainRun cfg env b0).browserClosed = true := by
    intro cfg env b0 h
    rw [mainRun_browserClosed_iff]
    exact (mainRun_fatal_iff cfg env b0).mp h
  refine ⟨key, fun cfg env b0 hr => ?_⟩
  have hok : (mainRun cfg env b0).fatal = false :=
    (mainRun_fatal_iff cfg env b0).mpr
      (runTargets_ok_of_read_ok cfg env hr cfg.urls _)
  exact ⟨hok, key cfg env b0 hok⟩

/-- Witness for C8 (amended): a run with a capture failure but no baseline
IO failure completes and closes the browser. -/
theorem mainRun_shutdown_no_fatal_witness :
    (mainRun cfgOneUrl envCaptureFail (fun _ => none)).fatal = false ∧
    (mainRun cfgOneUrl envCaptureFail (fun _ => none)).browserClosed = true :=
  mainRun_shutdown_no_fatal.2 cfgOneUrl envCaptureFail (fun _ => none) (fun _ => rfl)

/-- C10: a completed run whose report contains only capture-failure entries
(zero baselines seeded or replaced) still invokes the version-control commit
step with a message counting those failures as changes
("Update baselines (N change(s))"), and the single notification's subject
likewise counts failure entries and change entries together in one total. -/
theorem mainRun_failure_only_commit_subject (cfg : Config) (env : Env)
    (b0 : String → Option Img)
    (hfatal : (mainRun cfg env b0).fatal = false)
    (hall : ∀ e ∈ (mainRun cfg env b0).finalState.changes, e.isFailure = true)
    (hne : (mainRun cfg env b0).finalState.changes ≠ [])
    (hseed : (mainRun cfg env b0).finalState.seededBaselines = 0) :
    (mainRun cfg env b0).commitInvoked = true ∧
    (mainRun cfg env b0).commitMsg = some ("Update baselines ("
      ++ toString (mainRun cfg env b0).finalState.changes.length ++ " change(s))") ∧
    (mainRun cfg env b0).emailsSent = 1 ∧
    (mainRun cfg env b0).emailSubject = some ("Milltech visual change detected ("
      ++ toString (mainRun cfg env b0).finalState.changes.length ++ ")") := by
  cases hrun : runTargets cfg env cfg.urls ⟨b0, fun _ => none, [], [], 0⟩ with
  | error st =>
      exfalso
      simp [mainRun, hrun] at hfatal
  | ok st =>
      have hfs : (mainRun cfg env b0).finalState = st := by
        by_cases hc : st.changes.isEmpty <;> simp [mainRun, hrun, hc]
      rw [hfs] at hne
      have hcne : st.changes.isEmpty = false := by
        cases hmt : st.changes with
        | nil => exact absurd hmt hne
        | cons a l => simp [hmt]
      have hlen : (st.changes.length == 0) = false := by
        cases hmt : st.changes with
        | nil => exact absurd hmt hne
        | cons a l => simp [hmt]
      have hpos : (decide (st.changes.length > 0)) = true := by
        cases hmt : st.changes with
        | nil => exact absurd hmt hne
        | cons a l => simp [hmt]
      rw [hfs]
      refine ⟨?_, ?_, ?_, ?_⟩ <;>
        simp [mainRun, hrun, hcne, hlen, hpos]

/-- Witness for C10: a run whose single target fails to capture commits with
"Update baselines (1 change(s))" and notifies with subject counting 1. -/
theorem mainRun_failure_only_commit_subject_witness :
    (mainRun cfgOneUrl envCaptureFail (fun _ => none)).commitInvoked = true ∧
    (mainRun cfgOneUrl envCaptureFail (fun _ => none)).commitMsg =
      some ("Update baselines ("
        ++ toString (mainRun cfgOneUrl envCaptureFail
            (fun _ => none)).finalState.changes.length ++ " change(s))") ∧
    (mainRun cfgOneUrl envCaptureFail (fun _ => none)).emailsSent = 1 ∧
    (mainRun cfgOneUrl envCaptureFail (fun _ => none)).emailSubject =
      some ("Milltech visual change detected ("
        ++ toString (mainRun cfgOneUrl envCaptureFail
            (fun _ => none)).finalState.changes.length ++ ")") :=
  mainRun_failure_only_commit_subject cfgOneUrl envCaptureFail (fun _ => none)
    (by decide) (by decide) (by decide) (by decide)

end Monitor
